import Mathlib

/-!
Verification of the `langflow-110` repository: the local-disk storage adapter
`LocalStorageService` (src/backend/base/langflow/services/storage/local.py)
and the Fibonacci script (fib.py).

The filesystem is modelled as an association list from paths to nodes.  A path
is a list of name segments; flow ids and file names are treated as opaque
single segments (the spec's data model: opaque identifiers naming one
directory level each).  Bytes are modelled as natural numbers.  Python/pathlib
I/O primitives (`mkdir(parents=True, exist_ok=True)`, `write_bytes`,
`read_bytes`, `exists`, `is_dir`, `is_file`, `iterdir`, `unlink`) are embedded
with their POSIX semantics on such paths; each adapter operation returns the
resulting filesystem together with an `Except` outcome, mirroring Python
exceptions.
-/

/-- A path: a list of name segments relative to the filesystem base. -/
abbrev FPath := List String

/-- A filesystem node: a regular file with byte contents, or a directory. -/
inductive Node where
  | file (data : List Nat)
  | dir
deriving DecidableEq, Repr

/-- A filesystem: an association list from paths to nodes. -/
abbrev FS := List (FPath × Node)

/-- Look up the node at a path (Python: what `Path.exists` / `is_dir` /
`is_file` inspect). -/
def FS.lookup (fs : FS) (p : FPath) : Option Node :=
  (fs.find? (fun e => decide (e.1 = p))).map Prod.snd

/-- Remove every entry at a path. -/
def FS.eraseKey (fs : FS) (p : FPath) : FS :=
  fs.filter (fun e => decide (e.1 ≠ p))

/-- Set the node at a path, replacing any previous entry. -/
def FS.set (fs : FS) (p : FPath) (n : Node) : FS :=
  (p, n) :: fs.eraseKey p

/-- Errors raised by the adapter, mirroring the Python exceptions. -/
inductive Err where
  | fileNotFound (msg : String)
  | isADirectory
  | fileExists
deriving DecidableEq, Repr

/-- One `mkdir(exist_ok=True)` step: an existing directory is fine, an
existing file at the path is `FileExistsError`, otherwise the directory is
created. -/
def FS.mkdirSingle (fs : FS) (p : FPath) : Except Err FS :=
  match FS.lookup fs p with
  | some Node.dir => Except.ok fs
  | some (Node.file _) => Except.error Err.fileExists
  | none => Except.ok (FS.set fs p Node.dir)

/-- The nonempty prefixes of a path, shortest first: the chain of directories
`mkdir(parents=True)` ensures. -/
def prefixesOf (p : FPath) : List FPath :=
  (List.range p.length).map (fun i => p.take (i + 1))

/-- Python `Path.mkdir(parents=True, exist_ok=True)`: create every missing
ancestor directory, shortest first. -/
def FS.mkdirp (fs : FS) (p : FPath) : Except Err FS :=
  (prefixesOf p).foldlM FS.mkdirSingle fs

/-- Python `Path.write_bytes`: fails with `IsADirectoryError` when the target
is a directory, otherwise creates or overwrites the regular file. -/
def FS.writeBytes (fs : FS) (p : FPath) (data : List Nat) : Except Err FS :=
  match FS.lookup fs p with
  | some Node.dir => Except.error Err.isADirectory
  | _ => Except.ok (FS.set fs p (Node.file data))

/-- Python `Path.read_bytes`: fails with `IsADirectoryError` on a directory,
`FileNotFoundError` on an absent path, otherwise returns the contents. -/
def FS.readBytes (fs : FS) (p : FPath) : Except Err (List Nat) :=
  match FS.lookup fs p with
  | some (Node.file d) => Except.ok d
  | some Node.dir => Except.error Err.isADirectory
  | none => Except.error (Err.fileNotFound "No such file or directory")

/-- Python `Path.unlink` (POSIX): removes a regular file; raises
`IsADirectoryError` on a directory; `FileNotFoundError` when absent. -/
def FS.unlink (fs : FS) (p : FPath) : FS × Except Err Unit :=
  match FS.lookup fs p with
  | some (Node.file _) => (FS.eraseKey fs p, Except.ok ())
  | some Node.dir => (fs, Except.error Err.isADirectory)
  | none => (fs, Except.error (Err.fileNotFound "No such file or directory"))

/-- The entries of `iterdir folder`: the name and node of every entry lying
directly inside `folder`. -/
def FS.children (fs : FS) (folder : FPath) : List (String × Node) :=
  fs.filterMap (fun e =>
    match e.1.getLast? with
    | some name => if e.1.dropLast = folder then some (name, e.2) else none
    | none => none)

/-- The adapter: holds the root directory fixed at construction
(`self.data_dir = Path(settings_service.settings.config_dir)`). -/
structure LocalStorageService where
  data_dir : FPath

/-- Render a path as `str(Path(...))` does: segments joined by `/`. -/
def pathStr : FPath → String
  | [] => ""
  | [s] => s
  | s :: rest => s ++ "/" ++ pathStr rest

/-- `build_full_path`: `str(self.data_dir / flow_id / file_name)`. -/
def LocalStorageService.build_full_path (svc : LocalStorageService)
    (flow_id file_name : String) : String :=
  pathStr (svc.data_dir ++ [flow_id, file_name])

/-- `save_file`: `folder_path.mkdir(parents=True, exist_ok=True)` then
`file_path.write_bytes(data)`.  Returns the filesystem after the call together
with the outcome; a failing stage leaves the filesystem as that stage left it
(directory creation is not rolled back). -/
def LocalStorageService.save_file (svc : LocalStorageService) (fs : FS)
    (flow_id file_name : String) (data : List Nat) : FS × Except Err Unit :=
  let folder_path := svc.data_dir ++ [flow_id]
  match FS.mkdirp fs folder_path with
  | Except.error e => (fs, Except.error e)
  | Except.ok fs1 =>
    match FS.writeBytes fs1 (folder_path ++ [file_name]) data with
    | Except.error e => (fs1, Except.error e)
    | Except.ok fs2 => (fs2, Except.ok ())

/-- `get_file`: checks `file_path.exists()`; if absent raises
`FileNotFoundError(f"File \x7bfile_name\x7d not found in flow \x7bflow_id\x7d")`;
otherwise `file_path.read_bytes()`. -/
def LocalStorageService.get_file (svc : LocalStorageService) (fs : FS)
    (flow_id file_name : String) : Except Err (List Nat) :=
  let file_path := svc.data_dir ++ [flow_id, file_name]
  if (FS.lookup fs file_path).isSome then
    FS.readBytes fs file_path
  else
    Except.error (Err.fileNotFound
      ("File " ++ file_name ++ " not found in flow " ++ flow_id))

/-- `list_files`: if `folder_path` does not exist or is not a directory,
raises `FileNotFoundError(f"Flow \x7bflow_id\x7d directory does not exist.")`;
otherwise the names of the `iterdir` entries that are regular files. -/
def LocalStorageService.list_files (svc : LocalStorageService) (fs : FS)
    (flow_id : String) : Except Err (List String) :=
  let folder_path := svc.data_dir ++ [flow_id]
  match FS.lookup fs folder_path with
  | some Node.dir =>
      Except.ok ((FS.children fs folder_path).filterMap (fun c =>
        match c.2 with
        | Node.file _ => some c.1
        | Node.dir => none))
  | _ => Except.error (Err.fileNotFound
      ("Flow " ++ flow_id ++ " directory does not exist."))

/-- `delete_file`: if `file_path.exists()` then `file_path.unlink()` (which
raises `IsADirectoryError` on a directory), otherwise logs a warning and
returns successfully. -/
def LocalStorageService.delete_file (svc : LocalStorageService) (fs : FS)
    (flow_id file_name : String) : FS × Except Err Unit :=
  let file_path := svc.data_dir ++ [flow_id, file_name]
  if (FS.lookup fs file_path).isSome then
    FS.unlink fs file_path
  else
    (fs, Except.ok ())

/-- A realistic filesystem state: at most one entry per path, and every
entry's parent (when not the implicit base) is a directory entry. -/
def FS.WF (fs : FS) : Prop :=
  (fs.map Prod.fst).Nodup ∧
  ∀ e ∈ fs, e.1.dropLast = [] ∨ FS.lookup fs e.1.dropLast = some Node.dir

instance (fs : FS) : Decidable (FS.WF fs) := by
  unfold FS.WF; infer_instance

/-- Whether an outcome is a `FileNotFoundError` (with any message). -/
def isNotFoundGet : Except Err (List Nat) → Bool
  | Except.error (Err.fileNotFound _) => true
  | _ => false

/-- The spec's description of `buildFullPath`: the concatenation
`root / flowId / fileName` as a path string. -/
def buildFullPathSpec (root flow_id file_name : String) : String :=
  root ++ "/" ++ flow_id ++ "/" ++ file_name

/-- The loop of `fibonacci` in fib.py: `for _ in range(n): result.append(a);
a, b = b, a + b`. -/
def fibLoop : Nat → Nat → Nat → List Nat → List Nat
  | 0, _, _, result => result
  | k + 1, a, b, result => fibLoop k b (a + b) (result ++ [a])

/-- `fibonacci(n)` from fib.py: `[]` when `n <= 0`, else the loop run `n`
times from `a, b = 0, 1`. -/
def fibonacci (n : Int) : List Nat :=
  if n ≤ 0 then [] else fibLoop n.toNat 0 1 []

/-- The mathematical Fibonacci sequence, for stating fib.py's behaviour. -/
def natFib : Nat → Nat
  | 0 => 0
  | 1 => 1
  | k + 2 => natFib k + natFib (k + 1)

/-! ### Basic lemmas about the filesystem model -/

theorem FS.lookup_nil (q : FPath) : FS.lookup [] q = none := rfl

theorem FS.lookup_cons (e : FPath × Node) (rest : FS) (q : FPath) :
    FS.lookup (e :: rest) q =
      if e.1 = q then some e.2 else FS.lookup rest q := by
  by_cases h : e.1 = q <;> simp [FS.lookup, List.find?, h]

theorem FS.lookup_eraseKey (fs : FS) (p q : FPath) :
    FS.lookup (FS.eraseKey fs p) q = if q = p then none else FS.lookup fs q := by
  induction fs with
  | nil => simp [FS.eraseKey, FS.lookup_nil]
  | cons e rest ih =>
    by_cases hep : e.1 = p
    · simp only [FS.eraseKey, List.filter] at ih ⊢
      rw [show (decide (e.1 ≠ p)) = false by simp [hep]]
      rw [ih, FS.lookup_cons]
      by_cases hqp : q = p
      · simp [hqp]
      · simp [hqp, show e.1 ≠ q from hep ▸ fun h => hqp h.symm]
    · simp only [FS.eraseKey, List.filter] at ih ⊢
      rw [show (decide (e.1 ≠ p)) = true by simp [hep]]
      rw [FS.lookup_cons, FS.lookup_cons, ih]
      by_cases heq : e.1 = q
      · simp [heq, show q ≠ p from heq ▸ hep]
      · simp [heq]

theorem FS.lookup_set (fs : FS) (p : FPath) (n : Node) (q : FPath) :
    FS.lookup (FS.set fs p n) q = if q = p then some n else FS.lookup fs q := by
  rw [FS.set, FS.lookup_cons, FS.lookup_eraseKey]
  by_cases h : q = p
  · simp [h]
  · have h' : p ≠ q := fun hpq => h hpq.symm
    simp [h, h']

theorem FS.mem_of_lookup {fs : FS} {p : FPath} {n : Node}
    (h : FS.lookup fs p = some n) : (p, n) ∈ fs := by
  induction fs with
  | nil => simp [FS.lookup_nil] at h
  | cons e rest ih =>
    rw [FS.lookup_cons] at h
    by_cases he : e.1 = p
    · simp [he] at h
      have hepn : e = (p, n) := by cases e; simp_all
      rw [hepn]
      exact List.mem_cons_self _ _
    · simp [he] at h
      exact List.mem_cons.mpr (Or.inr (ih h))

theorem FS.lookup_of_mem {fs : FS} {p : FPath} {n : Node}
    (hN : (fs.map Prod.fst).Nodup) (h : (p, n) ∈ fs) :
    FS.lookup fs p = some n := by
  induction fs with
  | nil => simp at h
  | cons e rest ih =>
    simp only [List.map_cons, List.nodup_cons] at hN
    rcases List.mem_cons.mp h with he | hrest
    · rw [← he, FS.lookup_cons]
      simp
    · rw [FS.lookup_cons]
      have hne : e.1 ≠ p := by
        intro hep
        exact hN.1 (hep ▸ (List.mem_map.mpr ⟨(p, n), hrest, rfl⟩))
      simp [hne]
      exact ih hN.2 hrest

/-! ### Lemmas about directory creation -/

theorem mkdirSingle_ok_lookup {fs fs' : FS} {p : FPath}
    (h : FS.mkdirSingle fs p = Except.ok fs') :
    (∀ q, FS.lookup fs' q = FS.lookup fs q ∨
      (q = p ∧ FS.lookup fs' q = some Node.dir)) ∧
    FS.lookup fs' p = some Node.dir := by
  unfold FS.mkdirSingle at h
  cases hl : FS.lookup fs p with
  | none =>
    rw [hl] at h
    have hfs : fs' = FS.set fs p Node.dir := by
      cases h; rfl
    subst hfs
    constructor
    · intro q
      rw [FS.lookup_set]
      by_cases hq : q = p
      · exact Or.inr ⟨hq, by simp [hq]⟩
      · exact Or.inl (by simp [hq])
    · rw [FS.lookup_set]; simp
  | some n =>
    cases n with
    | file d => rw [hl] at h; cases h
    | dir =>
      rw [hl] at h
      have hfs : fs' = fs := by cases h; rfl
      subst hfs
      exact ⟨fun q => Or.inl rfl, hl⟩

theorem foldlM_mkdirSingle_lookup (ps : List FPath) :
    ∀ (fs fs' : FS), ps.foldlM FS.mkdirSingle fs = Except.ok fs' →
      (∀ q, FS.lookup fs' q = FS.lookup fs q ∨
        (q ∈ ps ∧ FS.lookup fs' q = some Node.dir)) ∧
      (∀ q ∈ ps, FS.lookup fs' q = some Node.dir) := by
  induction ps with
  | nil =>
    intro fs fs' h
    rw [List.foldlM_nil] at h
    have hfs : fs' = fs := by cases h; rfl
    subst hfs
    exact ⟨fun q => Or.inl rfl, by simp⟩
  | cons p rest ih =>
    intro fs fs' h
    rw [List.foldlM_cons] at h
    cases hstep : FS.mkdirSingle fs p with
    | error e => rw [hstep] at h; cases h
    | ok fs1 =>
      rw [hstep] at h
      have h1 := mkdirSingle_ok_lookup hstep
      have h2 := ih fs1 fs' h
      constructor
      · intro q
        rcases h2.1 q with hq | ⟨hmem, hdir⟩
        · rcases h1.1 q with hq' | ⟨hqp, hdir⟩
          · exact Or.inl (hq.trans hq')
          · exact Or.inr ⟨List.mem_cons.mpr (Or.inl hqp), hq.trans hdir⟩
        · exact Or.inr ⟨List.mem_cons.mpr (Or.inr hmem), hdir⟩
      · intro q hq
        rcases List.mem_cons.mp hq with rfl | hmem
        · rcases h2.1 q with hq' | ⟨_, hdir⟩
          · exact hq'.trans h1.2
          · exact hdir
        · exact h2.2 q hmem

theorem FS.mkdirp_lookup {fs fs' : FS} {p : FPath}
    (h : FS.mkdirp fs p = Except.ok fs') (q : FPath) :
    FS.lookup fs' q = FS.lookup fs q ∨
      (q ∈ prefixesOf p ∧ FS.lookup fs' q = some Node.dir) :=
  (foldlM_mkdirSingle_lookup (prefixesOf p) fs fs' h).1 q

theorem FS.mkdirp_dirs {fs fs' : FS} {p : FPath}
    (h : FS.mkdirp fs p = Except.ok fs') :
    ∀ q ∈ prefixesOf p, FS.lookup fs' q = some Node.dir :=
  (foldlM_mkdirSingle_lookup (prefixesOf p) fs fs' h).2

theorem foldlM_mkdirSingle_of_dirs (ps : List FPath) :
    ∀ (fs : FS), (∀ q ∈ ps, FS.lookup fs q = some Node.dir) →
      ps.foldlM FS.mkdirSingle fs = Except.ok fs := by
  induction ps with
  | nil => intro fs _; rfl
  | cons p rest ih =>
    intro fs h
    rw [List.foldlM_cons]
    have hstep : FS.mkdirSingle fs p = Except.ok fs := by
      unfold FS.mkdirSingle
      rw [h p (List.mem_cons_self _ _)]
    rw [hstep]
    exact ih fs (fun q hq => h q (List.mem_cons_of_mem _ hq))

theorem mem_prefixesOf {q p : FPath} :
    q ∈ prefixesOf p ↔ q ≠ [] ∧ q <+: p := by
  constructor
  · intro h
    simp only [prefixesOf, List.mem_map, List.mem_range] at h
    obtain ⟨i, hi, rfl⟩ := h
    refine ⟨?_, List.take_prefix _ _⟩
    have hlen : (p.take (i + 1)).length = i + 1 := by
      rw [List.length_take]; omega
    intro hnil
    rw [hnil] at hlen
    simp at hlen
  · rintro ⟨hne, hpre⟩
    simp only [prefixesOf, List.mem_map, List.mem_range]
    have hq : q = p.take q.length := List.prefix_iff_eq_take.mp hpre
    have hle : q.length ≤ p.length := hpre.length_le
    have hpos : 0 < q.length := List.length_pos.mpr hne
    exact ⟨q.length - 1, by omega,
      by rw [show q.length - 1 + 1 = q.length by omega]; exact hq.symm⟩

theorem prefixesOf_length_le {q p : FPath} (h : q ∈ prefixesOf p) :
    q.length ≤ p.length :=
  (mem_prefixesOf.mp h).2.length_le

/-! ### Characterization of the adapter operations -/

theorem path_assoc (r : FPath) (f n : String) :
    (r ++ [f]) ++ [n] = r ++ [f, n] := by simp

theorem writeBytes_ok {fs fs' : FS} {p : FPath} {d : List Nat}
    (h : FS.writeBytes fs p d = Except.ok fs') :
    FS.lookup fs p ≠ some Node.dir ∧ fs' = FS.set fs p (Node.file d) := by
  unfold FS.writeBytes at h
  cases hl : FS.lookup fs p with
  | none => rw [hl] at h; exact ⟨by simp [hl], by cases h; rfl⟩
  | some nd =>
    cases nd with
    | dir => rw [hl] at h; cases h
    | file d0 => rw [hl] at h; exact ⟨by simp [hl], by cases h; rfl⟩

theorem save_file_ok {svc : LocalStorageService} {fs : FS} {f n : String}
    {d : List Nat} (h : (svc.save_file fs f n d).2 = Except.ok ()) :
    ∃ fs1, FS.mkdirp fs (svc.data_dir ++ [f]) = Except.ok fs1 ∧
      FS.lookup fs1 (svc.data_dir ++ [f, n]) ≠ some Node.dir ∧
      (svc.save_file fs f n d).1 =
        FS.set fs1 (svc.data_dir ++ [f, n]) (Node.file d) := by
  unfold LocalStorageService.save_file at h ⊢
  dsimp only at h ⊢
  cases hmk : FS.mkdirp fs (svc.data_dir ++ [f]) with
  | error e => rw [hmk] at h; simp at h
  | ok fs1 =>
    dsimp only
    cases hw : FS.writeBytes fs1 ((svc.data_dir ++ [f]) ++ [n]) d with
    | error e =>
      rw [hmk] at h
      dsimp only at h
      rw [hw] at h
      simp at h
    | ok fs2 =>
      dsimp only
      obtain ⟨hnd, hset⟩ := writeBytes_ok hw
      rw [path_assoc] at hnd hset
      exact ⟨fs1, rfl, hnd, hset⟩

theorem get_file_of_none {svc : LocalStorageService} {fs : FS} {f n : String}
    (h : FS.lookup fs (svc.data_dir ++ [f, n]) = none) :
    svc.get_file fs f n =
      Except.error (Err.fileNotFound
        ("File " ++ n ++ " not found in flow " ++ f)) := by
  unfold LocalStorageService.get_file
  dsimp only
  rw [h]
  rfl

theorem get_file_of_dir {svc : LocalStorageService} {fs : FS} {f n : String}
    (h : FS.lookup fs (svc.data_dir ++ [f, n]) = some Node.dir) :
    svc.get_file fs f n = Except.error Err.isADirectory := by
  unfold LocalStorageService.get_file FS.readBytes
  dsimp only
  rw [h]
  rfl

theorem get_file_of_file {svc : LocalStorageService} {fs : FS} {f n : String}
    {d : List Nat}
    (h : FS.lookup fs (svc.data_dir ++ [f, n]) = some (Node.file d)) :
    svc.get_file fs f n = Except.ok d := by
  unfold LocalStorageService.get_file FS.readBytes
  dsimp only
  rw [h]
  rfl

theorem save_then_get (svc : LocalStorageService) (fs : FS) (f n : String)
    (d : List Nat) (h : (svc.save_file fs f n d).2 = Except.ok ()) :
    svc.get_file (svc.save_file fs f n d).1 f n = Except.ok d := by
  obtain ⟨fs1, hmk, hnd, hset⟩ := save_file_ok h
  rw [hset]
  apply get_file_of_file
  rw [FS.lookup_set]
  simp

/-! ### Characterization of `list_files` -/

theorem list_files_of_not_dir {svc : LocalStorageService} {fs : FS}
    {flow : String}
    (h : FS.lookup fs (svc.data_dir ++ [flow]) ≠ some Node.dir) :
    svc.list_files fs flow =
      Except.error (Err.fileNotFound
        ("Flow " ++ flow ++ " directory does not exist.")) := by
  unfold LocalStorageService.list_files
  dsimp only
  cases hl : FS.lookup fs (svc.data_dir ++ [flow]) with
  | none => rfl
  | some nd =>
    cases nd with
    | dir => exact absurd hl h
    | file d => rfl

theorem list_files_of_dir {svc : LocalStorageService} {fs : FS} {flow : String}
    (h : FS.lookup fs (svc.data_dir ++ [flow]) = some Node.dir) :
    svc.list_files fs flow =
      Except.ok ((FS.children fs (svc.data_dir ++ [flow])).filterMap (fun c =>
        match c.2 with
        | Node.file _ => some c.1
        | Node.dir => none)) := by
  unfold LocalStorageService.list_files
  dsimp only
  rw [h]

theorem mem_list_files {svc : LocalStorageService} {fs : FS} {flow : String}
    {l : List String} (hN : (fs.map Prod.fst).Nodup)
    (h : svc.list_files fs flow = Except.ok l) (name : String) :
    name ∈ l ↔
      ∃ d, FS.lookup fs (svc.data_dir ++ [flow, name]) = some (Node.file d) := by
  have hdir : FS.lookup fs (svc.data_dir ++ [flow]) = some Node.dir := by
    by_contra hnd
    rw [list_files_of_not_dir hnd] at h
    cases h
  rw [list_files_of_dir hdir] at h
  have hl : l = (FS.children fs (svc.data_dir ++ [flow])).filterMap (fun c =>
      match c.2 with
      | Node.file _ => some c.1
      | Node.dir => none) := by
    cases h; rfl
  subst hl
  constructor
  · intro hmem
    obtain ⟨c, hc, hcb⟩ := List.mem_filterMap.mp hmem
    cases hc2 : c.2 with
    | dir => rw [hc2] at hcb; cases hcb
    | file d =>
      rw [hc2] at hcb
      have hname : c.1 = name := by cases hcb; rfl
      obtain ⟨e, he, heb⟩ := List.mem_filterMap.mp hc
      cases hgl : e.1.getLast? with
      | none => rw [hgl] at heb; cases heb
      | some nm =>
        rw [hgl] at heb
        dsimp only at heb
        by_cases hdl : e.1.dropLast = svc.data_dir ++ [flow]
        · rw [if_pos hdl] at heb
          have hnm : nm = c.1 ∧ e.2 = c.2 := by
            constructor <;> cases heb <;> rfl
          have hpath : e.1 = svc.data_dir ++ [flow, name] := by
            rw [← path_assoc, ← hdl, ← hname, ← hnm.1]
            exact (List.dropLast_append_getLast? nm hgl).symm
          refine ⟨d, ?_⟩
          rw [← hpath]
          have hefs : (e.1, Node.file d) ∈ fs := by
            have he2 : e.2 = Node.file d := by rw [hnm.2, hc2]
            have hee : e = (e.1, Node.file d) := by rw [← he2]
            rw [← hee]
            exact he
          exact FS.lookup_of_mem hN hefs
        · rw [if_neg hdl] at heb; cases heb
  · rintro ⟨d, hd⟩
    have hmem : (svc.data_dir ++ [flow, name], Node.file d) ∈ fs :=
      FS.mem_of_lookup hd
    apply List.mem_filterMap.mpr
    refine ⟨(name, Node.file d), ?_, rfl⟩
    apply List.mem_filterMap.mpr
    refine ⟨(svc.data_dir ++ [flow, name], Node.file d), hmem, ?_⟩
    have h1 : (svc.data_dir ++ [flow, name]).getLast? = some name := by
      rw [← path_assoc]
      exact List.getLast?_concat _
    have h2 : (svc.data_dir ++ [flow, name]).dropLast = svc.data_dir ++ [flow] := by
      rw [← path_assoc]
      exact List.dropLast_concat
    simp [h1, h2]

/-! ### Characterization of `delete_file`, `build_full_path`, `fibonacci` -/

theorem delete_file_of_none {svc : LocalStorageService} {fs : FS} {f n : String}
    (h : FS.lookup fs (svc.data_dir ++ [f, n]) = none) :
    svc.delete_file fs f n = (fs, Except.ok ()) := by
  unfold LocalStorageService.delete_file
  dsimp only
  rw [h]
  rfl

theorem delete_file_of_file {svc : LocalStorageService} {fs : FS} {f n : String}
    {d : List Nat}
    (h : FS.lookup fs (svc.data_dir ++ [f, n]) = some (Node.file d)) :
    svc.delete_file fs f n =
      (FS.eraseKey fs (svc.data_dir ++ [f, n]), Except.ok ()) := by
  unfold LocalStorageService.delete_file FS.unlink
  dsimp only
  rw [h]
  rfl

theorem delete_file_of_dir {svc : LocalStorageService} {fs : FS} {f n : String}
    (h : FS.lookup fs (svc.data_dir ++ [f, n]) = some Node.dir) :
    svc.delete_file fs f n = (fs, Except.error Err.isADirectory) := by
  unfold LocalStorageService.delete_file FS.unlink
  dsimp only
  rw [h]
  rfl

theorem pathStr_append_two (r : FPath) (f n : String) (hr : r ≠ []) :
    pathStr (r ++ [f, n]) = pathStr r ++ "/" ++ f ++ "/" ++ n := by
  induction r with
  | nil => exact absurd rfl hr
  | cons s rest ih =>
    cases rest with
    | nil => simp [pathStr, String.append_assoc]
    | cons t rest2 =>
      have ih2 := ih (List.cons_ne_nil t rest2)
      have hL : pathStr ((s :: t :: rest2) ++ [f, n]) =
          s ++ "/" ++ pathStr ((t :: rest2) ++ [f, n]) := rfl
      have hR : pathStr (s :: t :: rest2) = s ++ "/" ++ pathStr (t :: rest2) := rfl
      rw [hL, ih2, hR]
      simp [String.append_assoc]

theorem fibLoop_eq (k : Nat) :
    ∀ (m : Nat),
      fibLoop k (natFib m) (natFib (m + 1)) ((List.range m).map natFib) =
        (List.range (m + k)).map natFib := by
  induction k with
  | zero => intro m; simp [fibLoop]
  | succ k ih =>
    intro m
    have h1 : fibLoop (k + 1) (natFib m) (natFib (m + 1))
        ((List.range m).map natFib) =
        fibLoop k (natFib (m + 1)) (natFib m + natFib (m + 1))
          (((List.range m).map natFib) ++ [natFib m]) := rfl
    have h2 : natFib m + natFib (m + 1) = natFib (m + 2) := rfl
    have h3 : ((List.range m).map natFib) ++ [natFib m] =
        (List.range (m + 1)).map natFib := by
      rw [List.range_succ, List.map_append]
      rfl
    rw [h1, h2, h3, ih (m + 1)]
    have h4 : m + 1 + k = m + (k + 1) := by omega
    rw [h4]

theorem fibonacci_eq (n : Int) :
    fibonacci n = (List.range n.toNat).map natFib := by
  unfold fibonacci
  by_cases h : n ≤ 0
  · rw [if_pos h, Int.toNat_of_nonpos h]
    rfl
  · rw [if_neg h]
    simpa using fibLoop_eq n.toNat 0

/-! ### Save outcomes on each path -/

theorem writeBytes_of_not_dir {fs : FS} {p : FPath} (d : List Nat)
    (h : FS.lookup fs p ≠ some Node.dir) :
    FS.writeBytes fs p d = Except.ok (FS.set fs p (Node.file d)) := by
  unfold FS.writeBytes
  cases hl : FS.lookup fs p with
  | none => rfl
  | some nd =>
    cases nd with
    | dir => exact absurd hl h
    | file d0 => rfl

theorem save_file_mkdirp_error {svc : LocalStorageService} {fs : FS}
    {flow_id file_name : String} {data : List Nat} {e : Err}
    (h : FS.mkdirp fs (svc.data_dir ++ [flow_id]) = Except.error e) :
    svc.save_file fs flow_id file_name data = (fs, Except.error e) := by
  unfold LocalStorageService.save_file
  dsimp only
  rw [h]

theorem save_file_write_error {svc : LocalStorageService} {fs fs1 : FS}
    {flow_id file_name : String} {data : List Nat} {e : Err}
    (hmk : FS.mkdirp fs (svc.data_dir ++ [flow_id]) = Except.ok fs1)
    (hw : FS.writeBytes fs1 ((svc.data_dir ++ [flow_id]) ++ [file_name]) data =
      Except.error e) :
    svc.save_file fs flow_id file_name data = (fs1, Except.error e) := by
  unfold LocalStorageService.save_file
  dsimp only
  rw [hmk]
  dsimp only
  rw [hw]

theorem save_file_write_ok {svc : LocalStorageService} {fs fs1 fs2 : FS}
    {flow_id file_name : String} {data : List Nat}
    (hmk : FS.mkdirp fs (svc.data_dir ++ [flow_id]) = Except.ok fs1)
    (hw : FS.writeBytes fs1 ((svc.data_dir ++ [flow_id]) ++ [file_name]) data =
      Except.ok fs2) :
    svc.save_file fs flow_id file_name data = (fs2, Except.ok ()) := by
  unfold LocalStorageService.save_file
  dsimp only
  rw [hmk]
  dsimp only
  rw [hw]

theorem save_file_ok_again {svc : LocalStorageService} {fs : FS}
    {f n : String} {d1 : List Nat}
    (h : (svc.save_file fs f n d1).2 = Except.ok ()) (d2 : List Nat) :
    (svc.save_file (svc.save_file fs f n d1).1 f n d2).2 = Except.ok () := by
  obtain ⟨fs1, hmk, hnd, hset⟩ := save_file_ok h
  rw [hset]
  have hdirs : ∀ q ∈ prefixesOf (svc.data_dir ++ [f]),
      FS.lookup (FS.set fs1 (svc.data_dir ++ [f, n]) (Node.file d1)) q =
        some Node.dir := by
    intro q hq
    rw [FS.lookup_set]
    have hne : q ≠ svc.data_dir ++ [f, n] := by
      intro hqe
      have hlen := prefixesOf_length_le hq
      rw [hqe] at hlen
      simp [List.length_append] at hlen
    rw [if_neg hne]
    exact FS.mkdirp_dirs hmk q hq
  have hmk2 : FS.mkdirp (FS.set fs1 (svc.data_dir ++ [f, n]) (Node.file d1))
      (svc.data_dir ++ [f]) =
      Except.ok (FS.set fs1 (svc.data_dir ++ [f, n]) (Node.file d1)) :=
    foldlM_mkdirSingle_of_dirs _ _ hdirs
  have hlk : FS.lookup (FS.set fs1 (svc.data_dir ++ [f, n]) (Node.file d1))
      ((svc.data_dir ++ [f]) ++ [n]) = some (Node.file d1) := by
    rw [path_assoc, FS.lookup_set, if_pos rfl]
  have hw := @writeBytes_of_not_dir
    (FS.set fs1 (svc.data_dir ++ [f, n]) (Node.file d1))
    ((svc.data_dir ++ [f]) ++ [n]) d2 (by rw [hlk]; simp)
  rw [save_file_write_ok hmk2 hw]

/-! ### Concrete fixtures for witnesses and counterexamples -/

/-- A concrete adapter whose configured root directory is `root`. -/
def svcW : LocalStorageService := ⟨["root"]⟩

/-- A concrete well-formed filesystem: flow directory `root/f1` holding a
regular file `a` (bytes `[7]`) and a subdirectory `sub`. -/
def fsW : FS :=
  [(["root"], Node.dir), (["root", "f1"], Node.dir),
   (["root", "f1", "a"], Node.file [7]),
   (["root", "f1", "sub"], Node.dir)]

/-! ### The claims -/

/-- Claim C1: for every flowId, fileName and byte sequence (empty included),
`save_file` followed by `get_file` on the same key, with no intervening
operation, returns exactly the saved bytes. -/
theorem C1_save_get_roundtrip (svc : LocalStorageService) (fs : FS)
    (flow_id file_name : String) (data : List Nat)
    (h : (svc.save_file fs flow_id file_name data).2 = Except.ok ()) :
    svc.get_file (svc.save_file fs flow_id file_name data).1 flow_id file_name =
      Except.ok data :=
  save_then_get svc fs flow_id file_name data h

/-- Witness for C1 at concrete inputs, with a non-empty and an empty
payload. -/
theorem C1_witness :
    ((svcW.save_file [] "f1" "a" [1, 2, 3]).2 = Except.ok () ∧
      svcW.get_file (svcW.save_file [] "f1" "a" [1, 2, 3]).1 "f1" "a" =
        Except.ok [1, 2, 3]) ∧
    ((svcW.save_file [] "f1" "b" []).2 = Except.ok () ∧
      svcW.get_file (svcW.save_file [] "f1" "b" []).1 "f1" "b" =
        Except.ok []) :=
  ⟨⟨rfl, C1_save_get_roundtrip svcW [] "f1" "a" [1, 2, 3] rfl⟩,
   ⟨rfl, C1_save_get_roundtrip svcW [] "f1" "b" [] rfl⟩⟩

/-- Claim C2 as stated is false at a concrete input: `get_file` on a path
occupied by a directory (`root/f1/sub` in `fsW`) fails with
`IsADirectoryError`, not with the NotFound error the claim requires. -/
theorem C2_counterexample :
    svcW.get_file fsW "f1" "sub" = Except.error Err.isADirectory ∧
    isNotFoundGet (svcW.get_file fsW "f1" "sub") = false :=
  ⟨rfl, rfl⟩

/-- Claim C2 amended: in every well-formed state a name is visible to
`list_files`, and `get_file` succeeds with bytes `d`, exactly when a regular
file (with contents `d`) exists at `root/flow_id/file_name`; but `get_file`
on a path occupied by a directory fails with `IsADirectoryError`, not with
NotFound. -/
theorem C2_visibility_invariant (svc : LocalStorageService) (fs : FS)
    (flow_id file_name : String) (hWF : FS.WF fs) :
    ((∃ l, svc.list_files fs flow_id = Except.ok l ∧ file_name ∈ l) ↔
      (∃ d, FS.lookup fs (svc.data_dir ++ [flow_id, file_name]) =
        some (Node.file d))) ∧
    (∀ d, svc.get_file fs flow_id file_name = Except.ok d ↔
      FS.lookup fs (svc.data_dir ++ [flow_id, file_name]) =
        some (Node.file d)) ∧
    (FS.lookup fs (svc.data_dir ++ [flow_id, file_name]) = some Node.dir →
      svc.get_file fs flow_id file_name = Except.error Err.isADirectory) := by
  refine ⟨⟨?_, ?_⟩, fun d => ⟨?_, fun hl => get_file_of_file hl⟩,
    fun h => get_file_of_dir h⟩
  · rintro ⟨l, hok, hmem⟩
    exact (mem_list_files hWF.1 hok file_name).mp hmem
  · rintro ⟨d, hd⟩
    have hmemfs := FS.mem_of_lookup hd
    have hparent := hWF.2 _ hmemfs
    have hdl : (svc.data_dir ++ [flow_id, file_name]).dropLast =
        svc.data_dir ++ [flow_id] := by
      rw [← path_assoc]
      exact List.dropLast_concat
    dsimp only at hparent
    rw [hdl] at hparent
    rcases hparent with hnil | hdir
    · exact absurd hnil (by simp)
    · exact ⟨_, list_files_of_dir hdir,
        (mem_list_files hWF.1 (list_files_of_dir hdir) file_name).mpr ⟨d, hd⟩⟩
  · intro h
    cases hl : FS.lookup fs (svc.data_dir ++ [flow_id, file_name]) with
    | none => rw [get_file_of_none hl] at h; cases h
    | some nd =>
      cases nd with
      | dir => rw [get_file_of_dir hl] at h; cases h
      | file d0 =>
        rw [get_file_of_file hl] at h
        cases h
        rfl

/-- Witness for the amended C2: in the concrete well-formed state `fsW`,
`get_file` on the regular file `root/f1/a` returns its contents. -/
theorem C2_witness : svcW.get_file fsW "f1" "a" = Except.ok [7] :=
  ((C2_visibility_invariant svcW fsW "f1" "a" (by decide)).2.1 [7]).mpr rfl

/-- Claim C3: saving twice on the same key with two different payloads and
then reading returns the second payload — `save_file` overwrites. -/
theorem C3_overwrite (svc : LocalStorageService) (fs : FS)
    (flow_id file_name : String) (d1 d2 : List Nat) (_hne : d1 ≠ d2)
    (h1 : (svc.save_file fs flow_id file_name d1).2 = Except.ok ()) :
    (svc.save_file (svc.save_file fs flow_id file_name d1).1
        flow_id file_name d2).2 = Except.ok () ∧
    svc.get_file (svc.save_file (svc.save_file fs flow_id file_name d1).1
        flow_id file_name d2).1 flow_id file_name = Except.ok d2 := by
  have h2 := save_file_ok_again h1 d2
  exact ⟨h2, save_then_get _ _ _ _ _ h2⟩

/-- Witness for C3 at concrete inputs. -/
theorem C3_witness :
    (svcW.save_file (svcW.save_file [] "f1" "a" [1]).1 "f1" "a" [2, 3]).2 =
      Except.ok () ∧
    svcW.get_file (svcW.save_file (svcW.save_file [] "f1" "a" [1]).1
        "f1" "a" [2, 3]).1 "f1" "a" = Except.ok [2, 3] :=
  C3_overwrite svcW [] "f1" "a" [1] [2, 3] (by decide) rfl

/-- Claim C4: `get_file` on a key with no file at `root/flowId/fileName`
fails with NotFound, and the message identifies both the file name and the
flow id (the read branch is not reached: the result is exactly the
pre-check's error). -/
theorem C4_get_not_found (svc : LocalStorageService) (fs : FS)
    (flow_id file_name : String)
    (h : FS.lookup fs (svc.data_dir ++ [flow_id, file_name]) = none) :
    svc.get_file fs flow_id file_name =
      Except.error (Err.fileNotFound
        ("File " ++ file_name ++ " not found in flow " ++ flow_id)) ∧
    ∃ pre mid, ("File " ++ file_name ++ " not found in flow " ++ flow_id) =
      pre ++ file_name ++ mid ++ flow_id :=
  ⟨get_file_of_none h, ⟨"File ", " not found in flow ", rfl⟩⟩

/-- Witness for C4: reading a never-saved key on the empty filesystem. -/
theorem C4_witness :
    svcW.get_file [] "f1" "x.txt" =
      Except.error (Err.fileNotFound
        ("File " ++ "x.txt" ++ " not found in flow " ++ "f1")) :=
  (C4_get_not_found svcW [] "f1" "x.txt" rfl).1

/-- Claim C5: `list_files` fails with NotFound when `root/flowId` is absent
or not a directory, and otherwise returns exactly the names of the regular
files in it, excluding subdirectory entries (order unspecified: membership is
characterised). -/
theorem C5_list_files (svc : LocalStorageService) (fs : FS) (flow_id : String)
    (hN : (fs.map Prod.fst).Nodup) :
    (FS.lookup fs (svc.data_dir ++ [flow_id]) ≠ some Node.dir →
      svc.list_files fs flow_id =
        Except.error (Err.fileNotFound
          ("Flow " ++ flow_id ++ " directory does not exist."))) ∧
    (FS.lookup fs (svc.data_dir ++ [flow_id]) = some Node.dir →
      ∃ l, svc.list_files fs flow_id = Except.ok l ∧
        ∀ name, name ∈ l ↔
          ∃ d, FS.lookup fs (svc.data_dir ++ [flow_id, name]) =
            some (Node.file d)) :=
  ⟨fun h => list_files_of_not_dir h,
   fun h => ⟨_, list_files_of_dir h,
     fun name => mem_list_files hN (list_files_of_dir h) name⟩⟩

/-- Witness for C5: listing a flow that was never created fails with the
NotFound error carrying the flow id. -/
theorem C5_witness :
    svcW.list_files [] "f2" =
      Except.error (Err.fileNotFound
        ("Flow " ++ "f2" ++ " directory does not exist.")) :=
  (C5_list_files svcW [] "f2" (by decide)).1 (by decide)

/-- Claim C6 as stated ("delete never raises") is false at a concrete input:
deleting a key occupied by a directory (`root/f1/sub` in `fsW`) passes the
`exists` check and `unlink` then fails with `IsADirectoryError`. -/
theorem C6_counterexample :
    (svcW.delete_file fsW "f1" "sub").2 = Except.error Err.isADirectory :=
  rfl

/-- Claim C6 amended: `delete_file` on a missing key is a successful no-op,
and on a regular file succeeds and removes it so that a subsequent `get_file`
fails with NotFound; however on a key occupied by a directory it raises
`IsADirectoryError` instead of succeeding. -/
theorem C6_delete_idempotent (svc : LocalStorageService) (fs : FS)
    (flow_id file_name : String) :
    (FS.lookup fs (svc.data_dir ++ [flow_id, file_name]) = none →
      svc.delete_file fs flow_id file_name = (fs, Except.ok ())) ∧
    (∀ d, FS.lookup fs (svc.data_dir ++ [flow_id, file_name]) =
        some (Node.file d) →
      (svc.delete_file fs flow_id file_name).2 = Except.ok () ∧
      svc.get_file (svc.delete_file fs flow_id file_name).1
          flow_id file_name =
        Except.error (Err.fileNotFound
          ("File " ++ file_name ++ " not found in flow " ++ flow_id))) ∧
    (FS.lookup fs (svc.data_dir ++ [flow_id, file_name]) = some Node.dir →
      svc.delete_file fs flow_id file_name =
        (fs, Except.error Err.isADirectory)) := by
  refine ⟨fun h => delete_file_of_none h, fun d h => ?_,
    fun h => delete_file_of_dir h⟩
  rw [delete_file_of_file h]
  refine ⟨rfl, ?_⟩
  apply get_file_of_none
  rw [FS.lookup_eraseKey]
  simp

/-- Witness for the amended C6: deleting the regular file `root/f1/a` in
`fsW` succeeds and a subsequent read fails with NotFound. -/
theorem C6_witness :
    (svcW.delete_file fsW "f1" "a").2 = Except.ok () ∧
    svcW.get_file (svcW.delete_file fsW "f1" "a").1 "f1" "a" =
      Except.error (Err.fileNotFound
        ("File " ++ "a" ++ " not found in flow " ++ "f1")) :=
  (C6_delete_idempotent svcW fsW "f1" "a").2.1 [7] rfl

/-- Claim C7: `build_full_path` is a pure function of its two arguments and
the root fixed at construction — by its very type it takes no filesystem and
returns no filesystem, so it performs no I/O and cannot change state; it
equals the concatenation root `/` flowId `/` fileName as a path string, and
two calls with identical arguments yield identical output. -/
theorem C7_build_full_path_pure (svc : LocalStorageService)
    (flow_id file_name : String) (hroot : svc.data_dir ≠ []) :
    svc.build_full_path flow_id file_name =
      buildFullPathSpec (pathStr svc.data_dir) flow_id file_name ∧
    svc.build_full_path flow_id file_name =
      svc.build_full_path flow_id file_name :=
  ⟨pathStr_append_two svc.data_dir flow_id file_name hroot, rfl⟩

/-- Witness for C7 at concrete inputs. -/
theorem C7_witness :
    svcW.build_full_path "f1" "x.txt" =
      buildFullPathSpec (pathStr svcW.data_dir) "f1" "x.txt" :=
  (C7_build_full_path_pure svcW "f1" "x.txt" (by decide)).1

/-- Claim C8 as stated is false at a concrete input: starting from a
filesystem where the configured root `root` does not exist, a successful
save creates the root directory itself (via `mkdir(parents=True)`). -/
theorem C8_counterexample :
    FS.lookup ([] : FS) ["root"] = none ∧
    (svcW.save_file [] "f1" "a" [1]).2 = Except.ok () ∧
    FS.lookup (svcW.save_file [] "f1" "a" [1]).1 ["root"] = some Node.dir :=
  ⟨rfl, rfl, rfl⟩

/-- Claim C8 amended: `save_file` never deletes anything and confines its
footprint to the key's path — any path whose node changes is either exactly
`root/flowId/fileName`, which now holds a regular file with the saved bytes,
or a nonempty prefix of `root/flowId` (the root itself and any missing
ancestors included), which now holds a directory. -/
theorem C8_save_footprint (svc : LocalStorageService) (fs : FS)
    (flow_id file_name : String) (data : List Nat) (q : FPath)
    (hq : FS.lookup (svc.save_file fs flow_id file_name data).1 q ≠
      FS.lookup fs q) :
    (q = svc.data_dir ++ [flow_id, file_name] ∧
      FS.lookup (svc.save_file fs flow_id file_name data).1 q =
        some (Node.file data)) ∨
    (q ≠ [] ∧ q <+: svc.data_dir ++ [flow_id] ∧
      FS.lookup (svc.save_file fs flow_id file_name data).1 q =
        some Node.dir) := by
  cases hmk : FS.mkdirp fs (svc.data_dir ++ [flow_id]) with
  | error e =>
    rw [save_file_mkdirp_error hmk] at hq
    exact absurd rfl hq
  | ok fs1 =>
    cases hw : FS.writeBytes fs1 ((svc.data_dir ++ [flow_id]) ++ [file_name])
        data with
    | error e =>
      rw [save_file_write_error hmk hw] at hq ⊢
      dsimp only at hq ⊢
      rcases FS.mkdirp_lookup hmk q with heq | ⟨hmem, hdir⟩
      · exact absurd heq hq
      · obtain ⟨hne, hpre⟩ := mem_prefixesOf.mp hmem
        exact Or.inr ⟨hne, hpre, hdir⟩
    | ok fs2 =>
      have hset := (writeBytes_ok hw).2
      rw [path_assoc] at hset
      rw [save_file_write_ok hmk hw] at hq ⊢
      dsimp only at hq ⊢
      rw [hset] at hq ⊢
      by_cases hqp : q = svc.data_dir ++ [flow_id, file_name]
      · refine Or.inl ⟨hqp, ?_⟩
        rw [FS.lookup_set, if_pos hqp]
      · rw [FS.lookup_set, if_neg hqp] at hq ⊢
        rcases FS.mkdirp_lookup hmk q with heq | ⟨hmem, hdir⟩
        · exact absurd heq hq
        · obtain ⟨hne, hpre⟩ := mem_prefixesOf.mp hmem
          exact Or.inr ⟨hne, hpre, hdir⟩

/-- Witness for the amended C8: the changed path `root` (created by the save
from the empty filesystem) falls in the directory-prefix disjunct. -/
theorem C8_witness :
    ((["root"] : FPath) = svcW.data_dir ++ ["f1", "a"] ∧
      FS.lookup (svcW.save_file [] "f1" "a" [1]).1 ["root"] =
        some (Node.file [1])) ∨
    ((["root"] : FPath) ≠ [] ∧ (["root"] : FPath) <+: svcW.data_dir ++ ["f1"] ∧
      FS.lookup (svcW.save_file [] "f1" "a" [1]).1 ["root"] =
        some Node.dir) :=
  C8_save_footprint svcW [] "f1" "a" [1] ["root"] (by decide)

/-- Claim C9: `fibonacci n` is `[]` for `n ≤ 0`, and for `0 < n` has exactly
`n` elements, starts with `0`, then `1` (when `n ≥ 2`), and every element
from the third on is the sum of the two preceding elements. -/
theorem C9_fibonacci_correct (n : Int) :
    (n ≤ 0 → fibonacci n = []) ∧
    (0 < n →
      (fibonacci n).length = n.toNat ∧
      (fibonacci n)[0]? = some 0 ∧
      (2 ≤ n → (fibonacci n)[1]? = some 1) ∧
      (∀ i : Nat, i + 2 < n.toNat →
        ∃ x y, (fibonacci n)[i]? = some x ∧
          (fibonacci n)[i + 1]? = some y ∧
          (fibonacci n)[i + 2]? = some (x + y))) := by
  constructor
  · intro h
    rw [fibonacci_eq, Int.toNat_of_nonpos h]
    rfl
  · intro hpos
    rw [fibonacci_eq]
    have h0 : 0 < n.toNat := by omega
    refine ⟨by simp, ?_, ?_, ?_⟩
    · rw [List.getElem?_map, List.getElem?_range h0]
      rfl
    · intro h2
      have h1 : 1 < n.toNat := by omega
      rw [List.getElem?_map, List.getElem?_range h1]
      rfl
    · intro i hi
      refine ⟨natFib i, natFib (i + 1), ?_, ?_, ?_⟩
      · rw [List.getElem?_map, List.getElem?_range (by omega)]
        rfl
      · rw [List.getElem?_map, List.getElem?_range (by omega)]
        rfl
      · rw [List.getElem?_map, List.getElem?_range hi]
        rfl

/-- Witness for C9 at concrete inputs `n = -1` and `n = 5`. -/
theorem C9_witness :
    fibonacci (-1) = [] ∧
    (fibonacci 5).length = (5 : Int).toNat ∧
    (fibonacci 5)[0]? = some 0 ∧
    (fibonacci 5)[1]? = some 1 :=
  ⟨(C9_fibonacci_correct (-1)).1 (by decide),
   ((C9_fibonacci_correct 5).2 (by decide)).1,
   ((C9_fibonacci_correct 5).2 (by decide)).2.1,
   ((C9_fibonacci_correct 5).2 (by decide)).2.2.1 (by decide)⟩

/-- Claim C10: when `save_file` fails during the write of the file contents
(directory creation succeeded, the write errored), the flow subdirectory
`root/flowId` — with every missing ancestor `mkdir(parents=True)` created —
is present in the resulting state: directory creation happens before the
write and is not rolled back. -/
theorem C10_mkdir_not_rolled_back (svc : LocalStorageService) (fs : FS)
    (flow_id file_name : String) (data : List Nat) (fs1 : FS) (e : Err)
    (hmk : FS.mkdirp fs (svc.data_dir ++ [flow_id]) = Except.ok fs1)
    (hw : FS.writeBytes fs1 ((svc.data_dir ++ [flow_id]) ++ [file_name])
      data = Except.error e) :
    svc.save_file fs flow_id file_name data = (fs1, Except.error e) ∧
    FS.lookup fs1 (svc.data_dir ++ [flow_id]) = some Node.dir ∧
    (∀ q, q ≠ [] → q <+: svc.data_dir ++ [flow_id] →
      FS.lookup fs1 q = some Node.dir) := by
  refine ⟨save_file_write_error hmk hw, ?_, ?_⟩
  · exact FS.mkdirp_dirs hmk _
      (mem_prefixesOf.mpr ⟨by simp, List.prefix_refl _⟩)
  · intro q hne hpre
    exact FS.mkdirp_dirs hmk q (mem_prefixesOf.mpr ⟨hne, hpre⟩)

/-- Witness for C10: in `fsW`, saving to the key `f1/sub` (occupied by a
directory) fails at the write stage, and the flow directory remains. -/
theorem C10_witness :
    svcW.save_file fsW "f1" "sub" [1] = (fsW, Except.error Err.isADirectory) ∧
    FS.lookup fsW (svcW.data_dir ++ ["f1"]) = some Node.dir := by
  have h := C10_mkdir_not_rolled_back svcW fsW "f1" "sub" [1] fsW
    Err.isADirectory rfl rfl
  exact ⟨h.1, h.2.1⟩
